import Mathlib

/-!
# Verification of the Choome capture→composite→persist core

Shallow embedding of the recording core of the Choome screen-recorder:

* `RecordingRecoveryService` (`src/main/services/ShortcutsManager.ts`,
  second document: the `RecordingRecoveryService` class) — the crash-safe
  recovery log: `begin` / `append` / `finalize` / `discard` /
  `recoverOrphaned`.
* `useRecording` (`src/renderer/hooks/useRecording.ts`, and the extended
  variant carrying the webcam watchdog) — session start, audio mixing,
  pause/resume timer, the webcam-staleness watchdog and the
  picture-in-picture overlay geometry.

File-system state is modelled as an association list from structured paths
to file data; JavaScript `Map` objects are modelled as association lists
with `Map.set` / `Map.delete` semantics.  `randomUUID` and the
timestamp-based `generateRecordingPath` are modelled by fresh counters.
-/

namespace Choome

/-- A byte of recorded data. -/
abbrev Byte := Nat

/-- File extensions produced by the service.  `EXTENSION_BY_MIME` maps
the three known mime types; every other mime falls back to `webm`. -/
inductive Ext
  | webm
  | mp4
  | mov
deriving DecidableEq, Repr

/-- `EXTENSION_BY_MIME[mimeType] ?? 'webm'` (ShortcutsManager.ts lines 19-23, 36). -/
def extensionByMime (mime : String) : Ext :=
  if mime = "video/webm" then .webm
  else if mime = "video/mp4" then .mp4
  else if mime = "video/quicktime" then .mov
  else .webm

/-- Structured file paths used by the recovery service.
`temp name ext` is `<tempDir>/<name>.<ext>` (scratch files, named
`recovery-<uuid>.<ext>` by `begin`); `stored n ext` is the n-th path returned
by `StorageService.generateRecordingPath` (a timestamped name under the
storage root, modelled by the counter `n`); `thumb n` is the matching
`<base>.jpg` thumbnail path. -/
inductive FsPath
  | temp (name : String) (ext : Ext)
  | stored (n : Nat) (ext : Ext)
  | thumb (n : Nat)
deriving DecidableEq, Repr

/-- `path.extname(p).replace('.', '') || 'webm'` for the paths the service
builds.  The service only ever applies this to scratch (`temp`) paths, in
`finalize` and `recoverOrphaned`; the `thumb` case is unreachable there. -/
def extOf : FsPath → Ext
  | .temp _ e => e
  | .stored _ e => e
  | .thumb _ => .webm

/-- Regular-file contents plus modification time.  Only regular files are
modelled, so the `stats.isFile()` check of the orphan sweep always holds. -/
structure FileData where
  content : List Byte
  mtimeMs : Nat
deriving DecidableEq, Repr

/-- The file system: a finite map from paths to file data. -/
abbrev Fs := List (FsPath × FileData)

/-- Read a file (`fs.readFileSync` / `fs.existsSync` / `fs.statSync`). -/
def getFile (fs : Fs) (p : FsPath) : Option FileData :=
  (fs.find? (fun e => e.1 == p)).map (·.2)

/-- Delete every binding of `p` (`fs.unlinkSync`, or the source side of
`fs.renameSync`). -/
def removeFile (fs : Fs) (p : FsPath) : Fs :=
  fs.filter (fun e => e.1 != p)

/-- Create or overwrite the file at `p` (`fs.writeFileSync`, the target
side of `fs.renameSync`, or the result of `fs.appendFileSync`). -/
def setFile (fs : Fs) (p : FsPath) (d : FileData) : Fs :=
  (p, d) :: removeFile fs p

/-- The four quality presets (`QualityPreset` in shared/types). -/
inductive QualityPreset
  | p720
  | p1080
  | p1440
  | p4k
deriving DecidableEq, Repr

/-- A catalog entry (`Recording` in shared/types).  `createdAt` is the
ISO timestamp, modelled as milliseconds. -/
structure Recording where
  id : String
  name : String
  path : FsPath
  duration : Nat
  fileSize : Nat
  quality : QualityPreset
  createdAt : Nat
  thumbnailPath : Option FsPath
  deletedAt : Option Nat
deriving DecidableEq, Repr

/-- `randomUUID()`, modelled by a fresh counter. -/
def mkUuid (n : Nat) : String := "uuid-" ++ toString n

/-- The basename `recording-<timestamp>` of the n-th
`generateRecordingPath` result (StorageService.ts lines 298-302). -/
def recName (n : Nat) : String := "recording-" ++ toString n

/-- State of the recovery service together with the parts of the outside
world it touches: the `active` map (id → scratch path), the file system,
the recordings catalog held by `StorageService` (`addRecording`
prepends), and the two freshness counters standing for `randomUUID` and
the timestamped `generateRecordingPath`. -/
structure RecoveryState where
  active : List (String × FsPath)
  files : Fs
  catalog : List Recording
  nextUuid : Nat
  nextPathStamp : Nat
deriving DecidableEq, Repr

/-- `this.active.get(id)` (JS `Map` lookup). -/
def lookupActive (st : RecoveryState) (id : String) : Option FsPath :=
  (st.active.find? (fun e => e.1 == id)).map (·.2)

/-- `Map.delete(id)`: remove the binding of `id`. -/
def eraseActive (a : List (String × FsPath)) (id : String) : List (String × FsPath) :=
  a.filter (fun e => e.1 != id)

/-- `Map.set(id, p)`: bind `id` to `p`, replacing any previous binding. -/
def setActive (a : List (String × FsPath)) (id : String) (p : FsPath) :
    List (String × FsPath) :=
  (id, p) :: eraseActive a id

/-- `begin(mimeType)` (ShortcutsManager.ts lines 34-45): draw a fresh id,
pick the extension from the mime type, create an empty scratch file
`recovery-<id>.<ext>` in the temp directory (`writeFileSync` with an
empty buffer truncates any existing file), and register the session in
the `active` map.  `now` is the wall clock (file mtime). -/
def serviceBegin (mime : String) (now : Nat) (st : RecoveryState) :
    (String × FsPath) × RecoveryState :=
  let id := mkUuid st.nextUuid
  let ext := extensionByMime mime
  let p := FsPath.temp ("recovery-" ++ id) ext
  ((id, p),
   { st with
      files := setFile st.files p ⟨[], now⟩
      active := setActive st.active id p
      nextUuid := st.nextUuid + 1 })

/-- `append(id, buffer)` (lines 47-51): if `id` has no active session,
return silently; otherwise `fs.appendFileSync` the bytes to the scratch
file (creating it if it vanished). -/
def serviceAppend (id : String) (buf : List Byte) (now : Nat)
    (st : RecoveryState) : RecoveryState :=
  match lookupActive st id with
  | none => st
  | some p =>
      let old := ((getFile st.files p).map (·.content)).getD []
      { st with files := setFile st.files p ⟨old ++ buf, now⟩ }

/-- Metadata passed to `finalize`. -/
structure FinalizeMeta where
  duration : Nat
  quality : QualityPreset
deriving DecidableEq, Repr

/-- `finalize(id, {duration, quality})` (lines 53-99): look up the active
session (throw if absent), move the scratch file to a fresh permanent
path (`fs.renameSync`, preserving content and mtime; throws if the
scratch file is gone), drop `id` from the active map, `statSync` the
moved file for its size, best-effort generate a `<base>.jpg` thumbnail
(`thumbOk` is the outcome of that attempt; failure is swallowed), build
the `Recording` entry from the passed metadata and prepend it to the
catalog (`StorageService.addRecording` unshifts). -/
def serviceFinalize (id : String) (meta : FinalizeMeta) (thumbOk : Bool)
    (now : Nat) (st : RecoveryState) :
    Except String (Recording × RecoveryState) :=
  match lookupActive st id with
  | none => .error "Recovery session not found"
  | some p =>
      match getFile st.files p with
      | none => .error "ENOENT: rename source missing"
      | some fd =>
          let ext := extOf p
          let out := FsPath.stored st.nextPathStamp ext
          let files1 := setFile (removeFile st.files p) out fd
          let thumbPath := FsPath.thumb st.nextPathStamp
          let files2 :=
            if thumbOk then setFile files1 thumbPath ⟨[0], now⟩ else files1
          let recd : Recording :=
            { id := id
              name := recName st.nextPathStamp
              path := out
              duration := meta.duration
              fileSize := fd.content.length
              quality := meta.quality
              createdAt := now
              thumbnailPath := if thumbOk then some thumbPath else none
              deletedAt := none }
          .ok (recd,
            { st with
                active := eraseActive st.active id
                files := files2
                catalog := recd :: st.catalog
                nextPathStamp := st.nextPathStamp + 1 })

/-- `discard(id)` (lines 101-107): if the active map knows `id` and the
scratch file still exists, unlink it; in every case drop `id` from the
active map.  Total — it never throws. -/
def serviceDiscard (id : String) (st : RecoveryState) : RecoveryState :=
  match lookupActive st id with
  | none => { st with active := eraseActive st.active id }
  | some p =>
      let files :=
        if (getFile st.files p).isSome then removeFile st.files p else st.files
      { st with files := files, active := eraseActive st.active id }

/-- Character-list prefix test: the semantics of `String.startsWith`,
written by structural recursion so that concrete instances evaluate. -/
def listPrefix : List Char → List Char → Bool
  | [], _ => true
  | _ :: _, [] => false
  | a :: as, b :: bs => a == b && listPrefix as bs

/-- Does a directory entry name a scratch file of the service?
(`entry.startsWith('recovery-')`, restricted to the temp directory that
`readdirSync` listed). -/
def isScratchEntry : FsPath → Bool
  | .temp nm _ => listPrefix "recovery-".data nm.data
  | _ => false

/-- One iteration of the orphan sweep (lines 115-154) on entry `p`:
`statSync` it (skip if it vanished — `readdirSync` cannot list a name
twice on a real file system, so this is unreachable), skip empty files,
move the file to a fresh permanent path, probe its duration with ffmpeg
(`probe`; a failed or zero probe yields 0), and register a
`…-recovered` catalog entry stamped `1080p` whose `createdAt` is the
file's mtime. -/
def recoverStep (probe : List Byte → Option Nat) (acc : List Recording × RecoveryState)
    (p : FsPath) : List Recording × RecoveryState :=
  let st := acc.2
  match getFile st.files p with
  | none => acc
  | some fd =>
      if fd.content.length = 0 then acc
      else
        let ext := extOf p
        let out := FsPath.stored st.nextPathStamp ext
        let files1 := setFile (removeFile st.files p) out fd
        let duration := (probe fd.content).getD 0
        let recd : Recording :=
          { id := mkUuid st.nextUuid
            name := recName st.nextPathStamp ++ "-recovered"
            path := out
            duration := duration
            fileSize := fd.content.length
            quality := .p1080
            createdAt := fd.mtimeMs
            thumbnailPath := none
            deletedAt := none }
        (acc.1 ++ [recd],
         { st with
            files := files1
            catalog := recd :: st.catalog
            nextUuid := st.nextUuid + 1
            nextPathStamp := st.nextPathStamp + 1 })

/-- `recoverOrphaned()` (lines 109-157): list the temp directory once,
keep the `recovery-` entries, and sweep them in order with
`recoverStep`.  `probe` abstracts `ffmpegService.getMetadata`: the
rounded `format.duration` of a file's bytes, `none` when probing throws
or reports no duration. -/
def recoverOrphaned (probe : List Byte → Option Nat) (st : RecoveryState) :
    List Recording × RecoveryState :=
  let entries := (st.files.map (·.1)).filter isScratchEntry
  entries.foldl (recoverStep probe) ([], st)

/-! ## Renderer: `startRecording` (useRecording.ts lines 119-525)

The start sequence is an async function whose external effects are
acquisitions and IPC calls; each may succeed or fail.  The environment
below carries the store flags the function reads and, for every awaited
external effect, an oracle for its outcome.  The function is embedded as
a pure map from that environment to the resulting status, the chosen
video source, the audio tracks added to the combined stream, and the
ordered trace of external calls it performed. -/

/-- Session status (`RecordingStatus` in shared/types). -/
inductive RecStatus
  | idle
  | recording
  | paused
  | processing
deriving DecidableEq, Repr

/-- An acquired audio `MediaStream`: an identity and its audio tracks
(track identities). -/
structure AStream where
  sid : Nat
  tracks : List Nat
deriving DecidableEq, Repr

/-- A track added to the combined output stream: either one of an
acquired stream's own tracks, unchanged, or the single mixed track of a
`MediaStreamAudioDestinationNode` fed by the listed streams. -/
inductive OutTrack
  | raw (trackId : Nat)
  | mixedOf (streamIds : List Nat)
deriving DecidableEq, Repr

/-- Result of the audio-combination section: the tracks added to the
combined stream, and whether an `AudioContext` mixing graph was
constructed. -/
structure MixResult where
  out : List OutTrack
  usedGraph : Bool
deriving DecidableEq, Repr

/-- useRecording.ts lines 403-422: with exactly one acquired audio
stream, add its tracks directly (no `AudioContext`); with more than one,
build a mixing graph connecting every stream into one destination and
add the destination's track; if graph construction throws, fall back to
the first acquired stream's own tracks. -/
def mixAudio (streams : List AStream) (mixOk : Bool) : MixResult :=
  match streams with
  | [] => ⟨[], false⟩
  | [s] => ⟨s.tracks.map .raw, false⟩
  | s :: rest =>
      if mixOk then ⟨[.mixedOf ((s :: rest).map (·.sid))], true⟩
      else ⟨s.tracks.map .raw, true⟩

/-- External calls `startRecording` performs, in order. -/
inductive RCall
  | getSettings
  | acquireScreen
  | queryOverlayConfig
  | acquireWebcam
  | acquireSystemAudio
  | acquireMic
  | beginRecovery
  | recorderStart
deriving DecidableEq, Repr

/-- The video source finally fed to the combined stream. -/
inductive VideoSource
  | screen
  | canvasComposite
deriving DecidableEq, Repr

/-- Store flags read by `startRecording` plus one outcome oracle per
awaited external effect. -/
structure StartEnv where
  includeWebcam : Bool
  includeMicrophone : Bool
  includeSystemAudio : Bool
  microphoneMuted : Bool
  systemAudioMuted : Bool
  /-- screen `getUserMedia` resolves -/
  screenOk : Bool
  /-- `getWebcamOverlayConfig` IPC resolves -/
  overlayOk : Bool
  /-- webcam `getUserMedia` resolves -/
  webcamOk : Bool
  /-- `canvas.getContext('2d')` is non-null -/
  canvasCtxOk : Bool
  /-- `getDisplayMedia` for system audio resolves -/
  sysAudioOk : Bool
  /-- the display stream actually carries audio tracks -/
  sysAudioHasTracks : Bool
  /-- system-audio track identities when captured -/
  sysTracks : List Nat
  /-- microphone `getUserMedia` resolves -/
  micOk : Bool
  /-- microphone track identities when captured -/
  micTracks : List Nat
  /-- `AudioContext` mixing-graph construction succeeds -/
  mixOk : Bool
  /-- `beginRecordingRecovery` IPC resolves -/
  beginRecoveryOk : Bool
  /-- `new MediaRecorder(...)` + `start` succeed (and `onstart` fires) -/
  recorderOk : Bool
deriving DecidableEq, Repr

/-- Lines 159-321, the `if (includeWebcam)` block: query the overlay
config, acquire the webcam, build the canvas compositor.  Any rejection
inside lands in the `catch` (lines 314-320) which stops the webcam
tracks and keeps the plain screen stream as the video source.  Returns
the chosen video source and the calls performed. -/
def webcamPhase (env : StartEnv) : VideoSource × List RCall :=
  if env.includeWebcam then
    if !env.overlayOk then (.screen, [.queryOverlayConfig])
    else if !env.webcamOk then (.screen, [.queryOverlayConfig, .acquireWebcam])
    else if !env.canvasCtxOk then (.screen, [.queryOverlayConfig, .acquireWebcam])
    else (.canvasComposite, [.queryOverlayConfig, .acquireWebcam])
  else (.screen, [])

/-- Lines 330-401: build the `audioStreams` array — the system-audio
display stream (when enabled, unmuted, resolved and carrying tracks) is
pushed first, then the microphone stream (when enabled, unmuted and
resolved).  Each failure is caught and reported; neither aborts the
start. -/
def audioPhase (env : StartEnv) : List AStream × List RCall :=
  let sysPart :=
    if env.includeSystemAudio && !env.systemAudioMuted then
      if env.sysAudioOk && env.sysAudioHasTracks then
        ([AStream.mk 0 env.sysTracks], [RCall.acquireSystemAudio])
      else ([], [RCall.acquireSystemAudio])
    else ([], [])
  let micPart :=
    if env.includeMicrophone && !env.microphoneMuted then
      if env.micOk then ([AStream.mk 1 env.micTracks], [RCall.acquireMic])
      else ([], [RCall.acquireMic])
    else ([], [])
  (sysPart.1 ++ micPart.1, sysPart.2 ++ micPart.2)

/-- Outcome of `startRecording`. -/
structure StartResult where
  status : RecStatus
  videoSource : Option VideoSource
  audioTracks : List OutTrack
  recoveryOpen : Bool
  calls : List RCall
deriving DecidableEq, Repr

/-- `startRecording` (lines 119-525): read settings, acquire the screen
(a rejection reaches the outer catch: report and stay `idle`), run the
webcam block (its failures degrade to screen-only), gather and combine
audio, open a recovery session (failure tolerated, id stays null),
create and start the `MediaRecorder` (a throw reaches the outer catch →
`idle`); `onstart` sets the status to `recording`. -/
def startRecording (env : StartEnv) : StartResult :=
  if !env.screenOk then
    { status := .idle, videoSource := none, audioTracks := []
      recoveryOpen := false, calls := [.getSettings, .acquireScreen] }
  else
    let wc := webcamPhase env
    let au := audioPhase env
    let mix := mixAudio au.1 env.mixOk
    if !env.recorderOk then
      { status := .idle, videoSource := none, audioTracks := []
        recoveryOpen := env.beginRecoveryOk
        calls := [.getSettings, .acquireScreen] ++ wc.2 ++ au.2 ++ [.beginRecovery] }
    else
      { status := .recording, videoSource := some wc.1, audioTracks := mix.out
        recoveryOpen := env.beginRecoveryOk
        calls := [.getSettings, .acquireScreen] ++ wc.2 ++ au.2
                   ++ [.beginRecovery, .recorderStart] }

/-! ## Renderer: recording timer and pause/resume
(useRecording.ts lines 496-506 and 666-691)

`onstart` records `startTimeRef = Date.now()`, zeroes
`pausedDurationRef` and starts a 1 s interval that displays
`(Date.now() - startTimeRef - pausedDurationRef) / 1000` seconds.
`pauseRecording` pauses the recorder and clears the interval;
`resumeRecording` resumes the recorder and restarts the interval.
Note, faithfully to the source: neither of them ever adds anything to
`pausedDurationRef` (resume computes `const pauseEnd = Date.now()` and
never uses it), so `pausedDurationRef` stays 0 for the whole session. -/

/-- Timer-relevant state of the hook. -/
structure TimerState where
  status : RecStatus
  startTime : Nat
  pausedDuration : Nat
  timerRunning : Bool
deriving DecidableEq, Repr

/-- The `onstart` handler (lines 496-506). -/
def onstartTimer (now : Nat) : TimerState :=
  { status := .recording, startTime := now, pausedDuration := 0, timerRunning := true }

/-- `pauseRecording` (lines 666-676): only acts while recording; pauses
the recorder and clears the interval.  `pausedDuration` is untouched. -/
def pauseRecording (st : TimerState) : TimerState :=
  if st.status = .recording then
    { st with status := .paused, timerRunning := false }
  else st

/-- `resumeRecording` (lines 679-691): only acts while paused; resumes
the recorder and restarts the interval.  `pausedDuration` is untouched
(`pauseEnd` is computed and dropped). -/
def resumeRecording (st : TimerState) : TimerState :=
  if st.status = .paused then
    { st with status := .recording, timerRunning := true }
  else st

/-- The interval callback's displayed duration in whole seconds
(lines 502-505 / 686-689). -/
def displayedDurationSec (st : TimerState) (now : Nat) : Nat :=
  (now - st.startTime - st.pausedDuration) / 1000

/-- Modelled from the spec: the total recorded duration excludes paused
intervals — wall-clock elapsed time minus the sum of the closed pause
intervals `(pauseStart, resumeAt)`, in whole seconds.  (The accumulation
of pause time is exactly the part the hook's `pausedDurationRef` was
meant to hold.) -/
def specDurationSec (startTime : Nat) (pauses : List (Nat × Nat)) (now : Nat) : Nat :=
  (now - startTime - (pauses.map (fun pr => pr.2 - pr.1)).sum) / 1000

/-! ## Renderer: webcam stream watchdog
(extended `useRecording` variant, lines 310-342 and 393-399)

The render loop carries four captured locals: `lastWebcamTime` (the last
seen `video.currentTime`, initialized to -1), `lastWebcamFrameAt` (a
`performance.now()` stamp), `webcamRefreshInFlight` and
`webcamRefreshCooldownUntil`.  `drawFrame` compares the current
`video.currentTime` against `lastWebcamTime`; when it has not moved for
more than 2000 ms it calls `refreshWebcamStream()` without awaiting it.
The refresh body is async: its synchronous prologue checks the in-flight
flag and the cooldown and, when clear, marks itself in flight and starts
`getWebcamStream()` (one reacquire attempt); its `finally` block stamps
`lastWebcamFrameAt`, sets a 5000 ms cooldown and clears the flag. -/

/-- Watchdog-relevant locals of the render loop.  `attempts` counts the
`getWebcamStream()` invocations (instrumentation only — no branch reads
it). -/
structure WatchdogState where
  lastWebcamTime : Int
  lastWebcamFrameAt : Nat
  inFlight : Bool
  cooldownUntil : Nat
  attempts : Nat
deriving DecidableEq, Repr

/-- Initial values (lines 310-313) at loop start time `t0`. -/
def watchdogInit (t0 : Nat) : WatchdogState :=
  { lastWebcamTime := -1, lastWebcamFrameAt := t0, inFlight := false
    cooldownUntil := 0, attempts := 0 }

/-- The synchronous prologue of `refreshWebcamStream` (lines 315-318):
a no-op while a refresh is in flight or before the cooldown expires;
otherwise it marks the refresh in flight and fires one
`getWebcamStream()` attempt. -/
def refreshWebcamStart (now : Nat) (st : WatchdogState) : WatchdogState :=
  if st.inFlight || decide (now < st.cooldownUntil) then st
  else { st with inFlight := true, attempts := st.attempts + 1 }

/-- The `finally` block of `refreshWebcamStream` (lines 337-341), run
when the in-flight attempt settles (success or failure) at time `tEnd`:
stamp `lastWebcamFrameAt`, arm a 5000 ms cooldown, clear the flag. -/
def refreshWebcamFinish (tEnd : Nat) (st : WatchdogState) : WatchdogState :=
  if st.inFlight then
    { st with lastWebcamFrameAt := tEnd, cooldownUntil := tEnd + 5000
              inFlight := false }
  else st

/-- The staleness check at the top of the webcam branch of `drawFrame`
(lines 393-399), at render-tick time `now` with the webcam video's
current media time `cur`: a fresh frame refreshes the stamps; a frame
stale for more than 2000 ms triggers `refreshWebcamStream`. -/
def watchdogTick (now : Nat) (cur : Int) (st : WatchdogState) : WatchdogState :=
  if cur != st.lastWebcamTime then
    { st with lastWebcamTime := cur, lastWebcamFrameAt := now }
  else if decide (now - st.lastWebcamFrameAt > 2000) then
    refreshWebcamStart now st
  else st

/-- Observable actions of one in-flight `refreshWebcamStream` body. -/
inductive RefreshAction
  | acquireNew
  | installNewStream
  | attachTrackListeners
  | swapCompositorInput
  | playVideo
  | stopOldTracks
deriving DecidableEq, Repr

/-- The ordered effect trace of the refresh body (lines 319-336) once it
is in flight: acquire the new stream via the constraint ladder
(`getWebcamStream`), store it in `webcamStreamRef`, attach
ended/mute listeners, point `webcamVideo.srcObject` (the compositor's
webcam input) at the new stream, play, and only then stop the old
stream's tracks.  When acquisition throws, the catch logs and nothing is
installed or stopped. -/
def refreshBodyTrace (acquireOk : Bool) : List RefreshAction :=
  if acquireOk then
    [.acquireNew, .installNewStream, .attachTrackListeners,
     .swapCompositorInput, .playVideo, .stopOldTracks]
  else
    [.acquireNew]

/-! ## Renderer: webcam overlay geometry (circle shape)

`drawFrame` resolves a picture-in-picture rectangle (default corner
placement, then the overlay-config override, then a live drag position)
and, when the configured shape is `circle`, forces the bubble to a
square of side `min(width, height)` recentered inside the resolved
rectangle (extended variant lines 437-443; identical code at
useRecording.ts lines 259-265). -/

/-- A rectangle in output-pixel space. -/
structure OverlayRect where
  x : Int
  y : Int
  width : Int
  height : Int
deriving DecidableEq, Repr

/-- `Math.round(n / 2)` for an integer `n ≥ 0` (JavaScript rounds half
away from zero for positives: `floor(n/2 + 1/2) = (n+1)/2`).  The code
only halves `width - diameter` and `height - diameter`, which are
nonnegative since `diameter` is the minimum. -/
def jsRoundHalf (n : Int) : Int := (n + 1) / 2

/-- The `if (webcamShape === 'circle')` adjustment (lines 437-443):
`diameter = Math.min(pipWidth, pipHeight)`, shift x and y by
`Math.round((pip - diameter) / 2)`, and set both sides to the
diameter. -/
def circleAdjust (r : OverlayRect) : OverlayRect :=
  let diameter := min r.width r.height
  { x := r.x + jsRoundHalf (r.width - diameter)
    y := r.y + jsRoundHalf (r.height - diameter)
    width := diameter
    height := diameter }

/-- Webcam bubble shapes (shared settings type). -/
inductive WebcamShape
  | circle
  | rounded
  | square
deriving DecidableEq, Repr

/-- The drawn bubble rectangle as a function of the configured shape and
the resolved overlay rectangle: only `circle` alters the rectangle
before clipping and drawing. -/
def drawnBubbleRect (shape : WebcamShape) (r : OverlayRect) : OverlayRect :=
  if shape = .circle then circleAdjust r else r

/-! ## Association-map lemmas -/

theorem getFile_setFile_self (fs : Fs) (p : FsPath) (d : FileData) :
    getFile (setFile fs p d) p = some d := by
  simp [getFile, setFile, List.find?_cons]

theorem find?_removeFile_self (fs : Fs) (p : FsPath) :
    (removeFile fs p).find? (fun e => e.1 == p) = none := by
  induction fs with
  | nil => rfl
  | cons a t _ =>
      by_cases hap : a.1 = p
      · simp [removeFile, List.filter_cons, hap]
      · simp [removeFile, List.filter_cons, List.find?_cons, hap]

theorem getFile_removeFile_self (fs : Fs) (p : FsPath) :
    getFile (removeFile fs p) p = none := by
  simp [getFile, find?_removeFile_self]

theorem getFile_removeFile_ne (fs : Fs) (p q : FsPath) (h : q ≠ p) :
    getFile (removeFile fs p) q = getFile fs q := by
  induction fs with
  | nil => rfl
  | cons a t ih =>
      simp only [getFile, removeFile] at ih ⊢
      by_cases hap : a.1 = p
      · have haq : ¬(a.1 = q) := by rw [hap]; exact fun e => h e.symm
        rw [List.filter_cons_of_neg (by simp [hap]),
          List.find?_cons_of_neg _ (by simp [haq]), ih]
      · rw [List.filter_cons_of_pos (by simp [hap])]
        by_cases haq : a.1 = q
        · rw [List.find?_cons_of_pos _ (by simp [haq]),
            List.find?_cons_of_pos _ (by simp [haq])]
        · rw [List.find?_cons_of_neg _ (by simp [haq]),
            List.find?_cons_of_neg _ (by simp [haq]), ih]

theorem getFile_setFile_ne (fs : Fs) (p q : FsPath) (d : FileData) (h : q ≠ p) :
    getFile (setFile fs p d) q = getFile fs q := by
  have hpq : ¬(p = q) := fun e => h e.symm
  calc getFile (setFile fs p d) q
      = getFile (removeFile fs p) q := by
        simp [getFile, setFile, List.find?_cons, hpq]
    _ = getFile fs q := getFile_removeFile_ne fs p q h

theorem find?_eraseActive_self (a : List (String × FsPath)) (id : String) :
    (eraseActive a id).find? (fun e => e.1 == id) = none := by
  induction a with
  | nil => rfl
  | cons x t _ =>
      by_cases hx : x.1 = id
      · simp [eraseActive, List.filter_cons, hx]
      · simp [eraseActive, List.filter_cons, List.find?_cons, hx]

theorem eraseActive_idem (a : List (String × FsPath)) (id : String) :
    eraseActive (eraseActive a id) id = eraseActive a id := by
  simp [eraseActive, List.filter_filter]

/-- With duplicate-free keys, `find?`-based lookup returns the data of
any member binding. -/
theorem getFile_of_mem_nodup (fs : Fs) (p : FsPath) (d : FileData)
    (hnd : (fs.map (·.1)).Nodup) (hmem : (p, d) ∈ fs) :
    getFile fs p = some d := by
  induction fs with
  | nil => cases hmem
  | cons a t ih =>
      have hnd' : (a.1 :: t.map (·.1)).Nodup := by simpa using hnd
      rcases List.mem_cons.mp hmem with he | ht
      · subst he
        simp [getFile, List.find?_cons_of_pos]
      · have hap : ¬(a.1 = p) := by
          intro e
          have hpmem : p ∈ t.map (·.1) := List.mem_map.mpr ⟨(p, d), ht, rfl⟩
          rw [← e] at hpmem
          exact (List.nodup_cons.mp hnd').1 hpmem
        have hrec := ih (by simpa using (List.nodup_cons.mp hnd').2) ht
        rw [getFile, List.find?_cons_of_neg _ (by simp [hap])]
        exact hrec

/-! ## Claim theorems -/

/-- Claim C9: for every rendered frame with the circle overlay shape,
the drawn bubble is a square whose side is the minimum of the resolved
overlay rectangle's width and height, recentered inside that
rectangle. -/
theorem c9_circle_bubble (r : OverlayRect) :
    (drawnBubbleRect .circle r).width = min r.width r.height ∧
    (drawnBubbleRect .circle r).height = min r.width r.height ∧
    (drawnBubbleRect .circle r).width = (drawnBubbleRect .circle r).height ∧
    r.x ≤ (drawnBubbleRect .circle r).x ∧
    (drawnBubbleRect .circle r).x + (drawnBubbleRect .circle r).width ≤
      r.x + r.width ∧
    r.y ≤ (drawnBubbleRect .circle r).y ∧
    (drawnBubbleRect .circle r).y + (drawnBubbleRect .circle r).height ≤
      r.y + r.height := by
  have hd : drawnBubbleRect .circle r = circleAdjust r := rfl
  rw [hd]
  dsimp only [circleAdjust, jsRoundHalf]
  refine ⟨rfl, rfl, rfl, ?_, ?_, ?_, ?_⟩ <;> omega

/-- Claim C4: in every watchdog reacquire, the newly acquired webcam
stream is installed (stored in `webcamStreamRef`) and swapped into the
compositor's input (`webcamVideo.srcObject`) strictly before the old
stream's tracks are stopped; the old stream is never released first. -/
theorem c4_install_before_release :
    ∀ acquireOk : Bool,
      RefreshAction.stopOldTracks ∈ refreshBodyTrace acquireOk →
      (refreshBodyTrace acquireOk).indexOf RefreshAction.installNewStream <
          (refreshBodyTrace acquireOk).indexOf RefreshAction.stopOldTracks ∧
      (refreshBodyTrace acquireOk).indexOf RefreshAction.swapCompositorInput <
          (refreshBodyTrace acquireOk).indexOf RefreshAction.stopOldTracks := by
  decide

theorem c4_install_before_release_witness :
    (refreshBodyTrace true).indexOf RefreshAction.installNewStream <
        (refreshBodyTrace true).indexOf RefreshAction.stopOldTracks ∧
    (refreshBodyTrace true).indexOf RefreshAction.swapCompositorInput <
        (refreshBodyTrace true).indexOf RefreshAction.stopOldTracks :=
  c4_install_before_release true (by decide)

/-- Claim C5 (code bug): the displayed recording duration is supposed to
exclude paused intervals, but `pausedDurationRef` is initialized to 0
and never incremented — `pauseRecording` only clears the interval and
`resumeRecording` drops the `pauseEnd` stamp it computes.  At the
failing input (start at 0 ms, pause at 10 000 ms, resume at 20 000 ms,
timer read at 30 000 ms) the code displays 30 s where the specified
duration is 20 s. -/
theorem c5_pause_not_excluded :
    displayedDurationSec (resumeRecording (pauseRecording (onstartTimer 0))) 30000
        = 30 ∧
    (resumeRecording (pauseRecording (onstartTimer 0))).pausedDuration = 0 ∧
    specDurationSec 0 [(10000, 20000)] 30000 = 20 := by decide

/-- Claim C3: while recording with a webcam, (1) a render tick that sees
the webcam frame stale for more than the 2 s window — with no refresh in
flight and the cooldown expired — fires exactly one reacquire attempt
and marks it in flight; (2) while a reacquire is in flight every trigger
is a no-op; (3) no attempt fires before the cooldown expires; (4) after
an attempt settles (success or failure) at time `tEnd`, no tick earlier
than `tEnd + 5000` fires another attempt. -/
theorem c3_watchdog_staleness_cooldown :
    (∀ (now : Nat) (cur : Int) (st : WatchdogState),
        st.inFlight = false → st.cooldownUntil ≤ now →
        cur = st.lastWebcamTime → now - st.lastWebcamFrameAt > 2000 →
        (watchdogTick now cur st).attempts = st.attempts + 1 ∧
          (watchdogTick now cur st).inFlight = true) ∧
    (∀ (now : Nat) (cur : Int) (st : WatchdogState),
        st.inFlight = true →
        (watchdogTick now cur st).attempts = st.attempts) ∧
    (∀ (now : Nat) (cur : Int) (st : WatchdogState),
        now < st.cooldownUntil →
        (watchdogTick now cur st).attempts = st.attempts) ∧
    (∀ (tEnd now : Nat) (cur : Int) (st : WatchdogState),
        st.inFlight = true → now < tEnd + 5000 →
        (watchdogTick now cur (refreshWebcamFinish tEnd st)).attempts =
          st.attempts) := by
  refine ⟨?_, ?_, ?_, ?_⟩
  · intro now cur st h1 h2 h3 h4
    subst h3
    simp only [watchdogTick, bne_self_eq_false, Bool.false_eq_true, if_false,
      refreshWebcamStart, h1, decide_eq_true_eq, if_pos h4]
    have hcool : decide (now < st.cooldownUntil) = false := by
      simp [Nat.not_lt.mpr h2]
    simp [hcool]
  · intro now cur st h1
    unfold watchdogTick refreshWebcamStart
    split
    · rfl
    · split
      · simp [h1]
      · rfl
  · intro now cur st h1
    unfold watchdogTick refreshWebcamStart
    split
    · rfl
    · split
      · simp [h1]
      · rfl
  · intro tEnd now cur st h1 h2
    unfold refreshWebcamFinish
    rw [if_pos h1]
    unfold watchdogTick refreshWebcamStart
    split
    · rfl
    · split
      · simp [h2]
      · rfl

theorem c3_watchdog_witness :
    ((watchdogTick 2001 0 ⟨0, 0, false, 0, 0⟩).attempts = 0 + 1 ∧
      (watchdogTick 2001 0 ⟨0, 0, false, 0, 0⟩).inFlight = true) ∧
    (watchdogTick 2001 0 ⟨0, 0, true, 0, 3⟩).attempts = 3 ∧
    (watchdogTick 2001 0 ⟨0, 0, false, 4000, 3⟩).attempts = 3 ∧
    (watchdogTick 8000 0 (refreshWebcamFinish 4000 ⟨0, 0, true, 0, 7⟩)).attempts
      = 7 :=
  ⟨c3_watchdog_staleness_cooldown.1 2001 0 ⟨0, 0, false, 0, 0⟩ rfl
      (by decide) rfl (by decide),
   c3_watchdog_staleness_cooldown.2.1 2001 0 ⟨0, 0, true, 0, 3⟩ rfl,
   c3_watchdog_staleness_cooldown.2.2.1 2001 0 ⟨0, 0, false, 4000, 3⟩
      (by decide),
   c3_watchdog_staleness_cooldown.2.2.2 4000 8000 0 ⟨0, 0, true, 0, 7⟩ rfl
      (by decide)⟩

/-- Claim C6: with exactly one acquired audio stream the combined output
carries that stream's tracks unchanged and no mixing graph is built;
with two (or more) streams, a mixing graph connects every stream into
one mixed output track; and if graph construction fails, the output
falls back to the first acquired stream's own tracks. -/
theorem c6_audio_mixing :
    (∀ (s : AStream) (mixOk : Bool),
        mixAudio [s] mixOk = ⟨s.tracks.map .raw, false⟩) ∧
    (∀ s t : AStream,
        mixAudio [s, t] true = ⟨[.mixedOf [s.sid, t.sid]], true⟩) ∧
    (∀ (s : AStream) (rest : List AStream), rest ≠ [] →
        mixAudio (s :: rest) false = ⟨s.tracks.map .raw, true⟩) := by
  refine ⟨fun s mixOk => rfl, fun s t => rfl, ?_⟩
  intro s rest h
  cases rest with
  | nil => exact absurd rfl h
  | cons t ts => rfl

theorem c6_audio_mixing_witness :
    mixAudio [⟨0, [5]⟩, ⟨1, [7]⟩] false = ⟨[.raw 5], true⟩ :=
  c6_audio_mixing.2.2 ⟨0, [5]⟩ [⟨1, [7]⟩] (by decide)

/-- A concrete start environment: screen acquisition succeeds, the
webcam is enabled but its `getUserMedia` rejects, everything else
succeeds. -/
def c2Env : StartEnv :=
  { includeWebcam := true, includeMicrophone := false
    includeSystemAudio := false, microphoneMuted := false
    systemAudioMuted := false, screenOk := true, overlayOk := true
    webcamOk := false, canvasCtxOk := true, sysAudioOk := false
    sysAudioHasTracks := false, sysTracks := [], micOk := false
    micTracks := [], mixOk := true, beginRecoveryOk := true
    recorderOk := true }

/-- Claim C2, counterexample: in a start where webcam acquisition fails
and screen acquisition succeeds, the session does reach `recording` —
but `getWebcamOverlayConfig` HAS been queried, because the code queries
it at the top of the webcam block, before attempting the webcam
`getUserMedia`.  This refutes the claim's "the overlay geometry is never
queried during that start". -/
theorem c2_counterexample :
    (startRecording c2Env).status = RecStatus.recording ∧
    RCall.queryOverlayConfig ∈ (startRecording c2Env).calls := by decide

/-- Claim C2, amended: in every session start where webcam acquisition
fails while screen acquisition succeeds (and the recorder itself
starts), the session still transitions to `recording` with the plain
screen stream as its video source; the overlay geometry is, however,
queried once, immediately before the webcam acquisition attempt. -/
theorem c2_screen_only_fallback (env : StartEnv)
    (hw : env.includeWebcam = true) (hs : env.screenOk = true)
    (ho : env.overlayOk = true) (hc : env.webcamOk = false)
    (hr : env.recorderOk = true) :
    (startRecording env).status = RecStatus.recording ∧
    (startRecording env).videoSource = some VideoSource.screen ∧
    ∃ c0 c1, (startRecording env).calls =
      c0 ++ RCall.queryOverlayConfig :: RCall.acquireWebcam :: c1 := by
  have hwc : webcamPhase env =
      (VideoSource.screen, [RCall.queryOverlayConfig, RCall.acquireWebcam]) := by
    unfold webcamPhase
    rw [if_pos hw, if_neg (by simp [ho]), if_pos (by simp [hc])]
  unfold startRecording
  rw [hs, hr]
  simp only [Bool.not_true, Bool.false_eq_true, if_false, hwc]
  refine ⟨trivial, trivial, [RCall.getSettings, RCall.acquireScreen],
    (audioPhase env).2 ++ [RCall.beginRecovery, RCall.recorderStart], ?_⟩
  simp

theorem c2_screen_only_fallback_witness :
    (startRecording c2Env).status = RecStatus.recording ∧
    (startRecording c2Env).videoSource = some VideoSource.screen ∧
    ∃ c0 c1, (startRecording c2Env).calls =
      c0 ++ RCall.queryOverlayConfig :: RCall.acquireWebcam :: c1 :=
  c2_screen_only_fallback c2Env rfl rfl rfl rfl rfl

/-- Claim C10: `append(id, bytes)` for an id with no open recovery
session — never begun, or already removed from the active map by
`finalize` or `discard` — returns without throwing (it is a total
function) and leaves the whole state, in particular every file,
unchanged. -/
theorem c10_stale_append_dropped (st : RecoveryState) (id : String)
    (buf : List Byte) (now : Nat) (h : lookupActive st id = none) :
    serviceAppend id buf now st = st := by
  unfold serviceAppend
  rw [h]

theorem c10_stale_append_dropped_witness :
    serviceAppend "uuid-9" [1, 2, 3] 5 ⟨[], [], [], 0, 0⟩ = ⟨[], [], [], 0, 0⟩ :=
  c10_stale_append_dropped ⟨[], [], [], 0, 0⟩ "uuid-9" [1, 2, 3] 5 rfl

/-! ## Runs of the recovery protocol -/

/-- The renderer's chunk-delivery loop: one `append(id, bᵢ)` call at
time `tᵢ` per produced chunk, in delivery order. -/
def appendRun (id : String) (cs : List (List Byte × Nat)) (st : RecoveryState) :
    RecoveryState :=
  cs.foldl (fun s cb => serviceAppend id cb.1 cb.2 s) st

theorem serviceBegin_lookup (mime : String) (now : Nat) (st : RecoveryState) :
    lookupActive (serviceBegin mime now st).2 (serviceBegin mime now st).1.1 =
      some (serviceBegin mime now st).1.2 := by
  unfold serviceBegin lookupActive setActive
  dsimp only
  rw [List.find?_cons_of_pos _ (by simp)]
  rfl

theorem serviceBegin_getFile (mime : String) (now : Nat) (st : RecoveryState) :
    getFile (serviceBegin mime now st).2.files (serviceBegin mime now st).1.2 =
      some ⟨[], now⟩ :=
  getFile_setFile_self _ _ _

theorem lookupActive_eq_of_active_eq {st st' : RecoveryState}
    (h : st.active = st'.active) (id : String) :
    lookupActive st id = lookupActive st' id := by
  unfold lookupActive; rw [h]

/-- Folding `append` over a chunk list keeps every other state component
and extends the scratch file by the chunks, concatenated in order. -/
theorem appendRun_spec (id : String) (p : FsPath) (cs : List (List Byte × Nat)) :
    ∀ (st : RecoveryState) (c : List Byte) (m : Nat),
      lookupActive st id = some p →
      getFile st.files p = some ⟨c, m⟩ →
      (appendRun id cs st).active = st.active ∧
      (appendRun id cs st).catalog = st.catalog ∧
      (appendRun id cs st).nextUuid = st.nextUuid ∧
      (appendRun id cs st).nextPathStamp = st.nextPathStamp ∧
      (∃ m', getFile (appendRun id cs st).files p =
        some ⟨c ++ (cs.map (·.1)).flatten, m'⟩) := by
  induction cs with
  | nil =>
      intro st c m hA hF
      exact ⟨rfl, rfl, rfl, rfl, m, by simpa using hF⟩
  | cons cb tl ih =>
      intro st c m hA hF
      have hstep : serviceAppend id cb.1 cb.2 st =
          { st with files := setFile st.files p ⟨c ++ cb.1, cb.2⟩ } := by
        unfold serviceAppend
        rw [hA]
        show ({ st with files :=
          (setFile st.files p
            ⟨((getFile st.files p).map (fun x => x.content)).getD [] ++ cb.1,
              cb.2⟩) } : RecoveryState) = _
        rw [hF]
        rfl
      have hA' : lookupActive (serviceAppend id cb.1 cb.2 st) id = some p := by
        rw [hstep]; exact hA
      have hF' : getFile (serviceAppend id cb.1 cb.2 st).files p =
          some ⟨c ++ cb.1, cb.2⟩ := by
        rw [hstep]; exact getFile_setFile_self _ _ _
      obtain ⟨h1, h2, h3, h4, m', h5⟩ :=
        ih (serviceAppend id cb.1 cb.2 st) (c ++ cb.1) cb.2 hA' hF'
      have hrun : appendRun id (cb :: tl) st =
          appendRun id tl (serviceAppend id cb.1 cb.2 st) := rfl
      rw [hrun]
      refine ⟨?_, ?_, ?_, ?_, m', ?_⟩
      · rw [h1, hstep]
      · rw [h2, hstep]
      · rw [h3, hstep]
      · rw [h4, hstep]
      · rw [h5]
        simp [List.append_assoc]

/-- A successful `finalize` in one step: what it returns and what it
does to the state, given the looked-up scratch path and its contents. -/
theorem serviceFinalize_spec (id : String) (p : FsPath) (meta : FinalizeMeta)
    (thumbOk : Bool) (now : Nat) (st : RecoveryState) (c : List Byte) (m : Nat)
    (hA : lookupActive st id = some p)
    (hF : getFile st.files p = some ⟨c, m⟩) :
    ∃ (recd : Recording) (st' : RecoveryState),
      serviceFinalize id meta thumbOk now st = .ok (recd, st') ∧
      recd.duration = meta.duration ∧
      recd.quality = meta.quality ∧
      recd.fileSize = c.length ∧
      recd.path = FsPath.stored st.nextPathStamp (extOf p) ∧
      getFile st'.files recd.path = some ⟨c, m⟩ ∧
      st'.catalog = recd :: st.catalog ∧
      st'.active = eraseActive st.active id := by
  cases thumbOk with
  | false =>
      have hfin : serviceFinalize id meta false now st =
          .ok (⟨id, recName st.nextPathStamp,
                FsPath.stored st.nextPathStamp (extOf p), meta.duration,
                c.length, meta.quality, now, none, none⟩,
              ⟨eraseActive st.active id,
                setFile (removeFile st.files p)
                  (FsPath.stored st.nextPathStamp (extOf p)) ⟨c, m⟩,
                ⟨id, recName st.nextPathStamp,
                  FsPath.stored st.nextPathStamp (extOf p), meta.duration,
                  c.length, meta.quality, now, none, none⟩ :: st.catalog,
                st.nextUuid, st.nextPathStamp + 1⟩) := by
        simp [serviceFinalize, hA, hF]
      exact ⟨_, _, hfin, rfl, rfl, rfl, rfl, getFile_setFile_self _ _ _,
        rfl, rfl⟩
  | true =>
      have hfin : serviceFinalize id meta true now st =
          .ok (⟨id, recName st.nextPathStamp,
                FsPath.stored st.nextPathStamp (extOf p), meta.duration,
                c.length, meta.quality, now,
                some (FsPath.thumb st.nextPathStamp), none⟩,
              ⟨eraseActive st.active id,
                setFile
                  (setFile (removeFile st.files p)
                    (FsPath.stored st.nextPathStamp (extOf p)) ⟨c, m⟩)
                  (FsPath.thumb st.nextPathStamp) ⟨[0], now⟩,
                ⟨id, recName st.nextPathStamp,
                  FsPath.stored st.nextPathStamp (extOf p), meta.duration,
                  c.length, meta.quality, now,
                  some (FsPath.thumb st.nextPathStamp), none⟩ :: st.catalog,
                st.nextUuid, st.nextPathStamp + 1⟩) := by
        simp [serviceFinalize, hA, hF]
      have hget : getFile (setFile
            (setFile (removeFile st.files p)
              (FsPath.stored st.nextPathStamp (extOf p)) ⟨c, m⟩)
            (FsPath.thumb st.nextPathStamp) ⟨[0], now⟩)
            (FsPath.stored st.nextPathStamp (extOf p)) = some ⟨c, m⟩ := by
        rw [getFile_setFile_ne _ _ _ _ (fun h => FsPath.noConfusion h)]
        exact getFile_setFile_self _ _ _
      exact ⟨_, _, hfin, rfl, rfl, rfl, rfl, hget, rfl, rfl⟩

/-- Claim C1: for every `begin(mime)`, `append(id, b₁) … append(id, bₙ)`,
`finalize(id, {duration, quality})` sequence, finalize succeeds, the
finalized artifact holds exactly the appended chunks laid out in append
order — so its byte length is the sum of the chunk lengths — and the
created catalog entry carries exactly the `duration` and `quality`
passed to finalize. -/
theorem c1_recovery_roundtrip (st : RecoveryState) (mime : String)
    (cs : List (List Byte × Nat)) (dur : Nat) (q : QualityPreset)
    (thumbOk : Bool) (t0 tf : Nat) :
    ∃ (recd : Recording) (st3 : RecoveryState) (m' : Nat),
      serviceFinalize (serviceBegin mime t0 st).1.1 ⟨dur, q⟩ thumbOk tf
          (appendRun (serviceBegin mime t0 st).1.1 cs (serviceBegin mime t0 st).2)
        = .ok (recd, st3) ∧
      recd.duration = dur ∧
      recd.quality = q ∧
      recd.fileSize = ((cs.map (·.1)).map List.length).sum ∧
      getFile st3.files recd.path = some ⟨(cs.map (·.1)).flatten, m'⟩ ∧
      st3.catalog = recd :: st.catalog := by
  obtain ⟨h1, h2, h3, h4, m', h5⟩ :=
    appendRun_spec (serviceBegin mime t0 st).1.1 (serviceBegin mime t0 st).1.2
      cs (serviceBegin mime t0 st).2 [] t0
      (serviceBegin_lookup mime t0 st) (serviceBegin_getFile mime t0 st)
  have hA2 : lookupActive
      (appendRun (serviceBegin mime t0 st).1.1 cs (serviceBegin mime t0 st).2)
      (serviceBegin mime t0 st).1.1 = some (serviceBegin mime t0 st).1.2 :=
    (lookupActive_eq_of_active_eq h1 _).trans (serviceBegin_lookup mime t0 st)
  obtain ⟨recd, st3, hfin, hdur, hq, hsize, _, hget, hcat, _⟩ :=
    serviceFinalize_spec (serviceBegin mime t0 st).1.1
      (serviceBegin mime t0 st).1.2 ⟨dur, q⟩ thumbOk tf
      (appendRun (serviceBegin mime t0 st).1.1 cs (serviceBegin mime t0 st).2)
      ([] ++ (cs.map (·.1)).flatten) m' hA2 h5
  refine ⟨recd, st3, m', hfin, hdur, hq, ?_, ?_, ?_⟩
  · rw [hsize]
    simp [List.length_flatten]
  · simpa using hget
  · rw [hcat, h2]
    rfl

/-- Claim C8: once `finalize(id, …)` has succeeded — removing `id` from
the active map — a subsequent `discard(id)` is a no-op: `discard` is a
total function (it cannot throw), and it leaves the state, in particular
the finalized recording file and its catalog entry, untouched. -/
theorem c8_discard_after_finalize (st : RecoveryState) (id : String)
    (meta : FinalizeMeta) (thumbOk : Bool) (now : Nat)
    (recd : Recording) (st' : RecoveryState)
    (h : serviceFinalize id meta thumbOk now st = .ok (recd, st')) :
    serviceDiscard id st' = st' := by
  cases hA : lookupActive st id with
  | none =>
      have : serviceFinalize id meta thumbOk now st = .error "Recovery session not found" := by
        simp [serviceFinalize, hA]
      rw [this] at h
      cases h
  | some p =>
      cases hF : getFile st.files p with
      | none =>
          have : serviceFinalize id meta thumbOk now st =
              .error "ENOENT: rename source missing" := by
            simp [serviceFinalize, hA, hF]
          rw [this] at h
          cases h
      | some fd =>
          obtain ⟨recd2, st2', hfin, _, _, _, _, _, _, hact2⟩ :=
            serviceFinalize_spec id p meta thumbOk now st fd.content fd.mtimeMs
              hA hF
          rw [hfin] at h
          injection h with hpair
          injection hpair with hr hs
          subst hs
          have hnone : lookupActive st2' id = none := by
            unfold lookupActive
            rw [hact2, find?_eraseActive_self]
            rfl
          have herase : eraseActive st2'.active id = st2'.active := by
            rw [hact2]; exact eraseActive_idem _ _
          unfold serviceDiscard
          rw [hnone]
          simp [herase]

theorem c8_discard_after_finalize_witness :
    serviceDiscard "uuid-0"
      ⟨[], [(FsPath.stored 0 .webm, ⟨[], 0⟩)],
        [⟨"uuid-0", "recording-0", FsPath.stored 0 .webm, 12, 0, .p1080,
          99, none, none⟩], 1, 1⟩ =
    ⟨[], [(FsPath.stored 0 .webm, ⟨[], 0⟩)],
        [⟨"uuid-0", "recording-0", FsPath.stored 0 .webm, 12, 0, .p1080,
          99, none, none⟩], 1, 1⟩ :=
  c8_discard_after_finalize
    ⟨[("uuid-0", FsPath.temp "recovery-uuid-0" .webm)],
      [(FsPath.temp "recovery-uuid-0" .webm, ⟨[], 0⟩)], [], 1, 0⟩
    "uuid-0" ⟨12, .p1080⟩ false 99
    ⟨"uuid-0", "recording-0", FsPath.stored 0 .webm, 12, 0, .p1080, 99,
      none, none⟩
    ⟨[], [(FsPath.stored 0 .webm, ⟨[], 0⟩)],
      [⟨"uuid-0", "recording-0", FsPath.stored 0 .webm, 12, 0, .p1080,
        99, none, none⟩], 1, 1⟩
    rfl

/-! ## The orphan sweep -/

/-- A sweep iteration on a missing or empty file changes nothing. -/
theorem recoverStep_skip (probe : List Byte → Option Nat)
    (acc : List Recording × RecoveryState) (p : FsPath)
    (h : ∀ fd, getFile acc.2.files p = some fd → fd.content.length = 0) :
    recoverStep probe acc p = acc := by
  cases hg : getFile acc.2.files p with
  | none => simp only [recoverStep, hg]
  | some fd =>
      simp only [recoverStep, hg]
      rw [if_pos (h fd hg)]

/-- Sweeping a run of missing-or-empty entries changes nothing. -/
theorem foldl_recoverStep_skip (probe : List Byte → Option Nat)
    (es : List FsPath) (acc : List Recording × RecoveryState) :
    (∀ p ∈ es, ∀ fd, getFile acc.2.files p = some fd →
        fd.content.length = 0) →
    es.foldl (recoverStep probe) acc = acc := by
  induction es with
  | nil => intro _; rfl
  | cons a t ih =>
      intro h
      rw [List.foldl_cons, recoverStep_skip probe acc a (h a (by simp))]
      exact ih fun p hp fd hfd => h p (by simp [hp]) fd hfd

/-- A sweep iteration on a present, non-empty scratch file: the file is
moved to a fresh stored path and a `…-recovered` entry is produced whose
duration comes from probing the file's bytes. -/
theorem recoverStep_hit (probe : List Byte → Option Nat)
    (recs : List Recording) (st : RecoveryState) (p : FsPath) (fd : FileData)
    (hget : getFile st.files p = some fd)
    (hlen : fd.content.length ≠ 0) :
    recoverStep probe (recs, st) p =
      (recs ++ [⟨mkUuid st.nextUuid, recName st.nextPathStamp ++ "-recovered",
          FsPath.stored st.nextPathStamp (extOf p), (probe fd.content).getD 0,
          fd.content.length, .p1080, fd.mtimeMs, none, none⟩],
        { st with
            files := setFile (removeFile st.files p)
              (FsPath.stored st.nextPathStamp (extOf p)) fd
            catalog := ⟨mkUuid st.nextUuid,
              recName st.nextPathStamp ++ "-recovered",
              FsPath.stored st.nextPathStamp (extOf p),
              (probe fd.content).getD 0, fd.content.length, .p1080,
              fd.mtimeMs, none, none⟩ :: st.catalog
            nextUuid := st.nextUuid + 1
            nextPathStamp := st.nextPathStamp + 1 }) := by
  simp only [recoverStep, hget]
  rw [if_neg hlen]

/-- Claim C7: when the startup orphan sweep finds exactly one
unfinalized, non-empty scratch file (other directory entries being empty
scratch files, which are skipped), exactly one "recovered" catalog entry
is created, the file is moved into permanent storage (gone from its
scratch path, present at the entry's stored path), and the entry's
duration is derived by probing the file's own bytes — the sweep takes no
in-memory session state at all. -/
theorem c7_orphan_sweep (probe : List Byte → Option Nat) (st : RecoveryState)
    (p : FsPath) (fd : FileData)
    (hnd : (st.files.map (·.1)).Nodup)
    (hone : st.files.filter
        (fun e => isScratchEntry e.1 && e.2.content.length != 0) = [(p, fd)]) :
    ∃ r, (recoverOrphaned probe st).1 = [r] ∧
      r.duration = (probe fd.content).getD 0 ∧
      r.quality = QualityPreset.p1080 ∧
      r.fileSize = fd.content.length ∧
      (recoverOrphaned probe st).2.catalog = r :: st.catalog ∧
      getFile (recoverOrphaned probe st).2.files p = none ∧
      getFile (recoverOrphaned probe st).2.files r.path = some fd := by
  rw [List.filter_eq_cons_iff] at hone
  obtain ⟨L1, L2, hsplit, hL1, hpfd, hL2⟩ := hone
  have hpfd' := hpfd
  simp only [Bool.and_eq_true] at hpfd'
  obtain ⟨hscr, hlen⟩ := hpfd'
  have hscr' : isScratchEntry p = true := hscr
  have hlen' : fd.content.length ≠ 0 := by simpa using hlen
  have hL1' : ∀ e ∈ L1, isScratchEntry e.1 = true → e.2.content.length = 0 := by
    intro e he hs
    have hne := hL1 e he
    simp [hs] at hne
    simp [hne]
  have hL2' : ∀ e ∈ L2, isScratchEntry e.1 = true → e.2.content.length = 0 := by
    intro e he hs
    have hne := List.filter_eq_nil_iff.mp hL2 e he
    simp [hs] at hne
    simp [hne]
  have hndk := hnd
  rw [hsplit] at hndk
  simp only [List.map_append, List.map_cons] at hndk
  have hdisj := List.nodup_append.mp hndk
  have hpL2 : p ∉ L2.map (·.1) := (List.nodup_cons.mp hdisj.2.1).1
  have hpne : p ≠ FsPath.stored st.nextPathStamp (extOf p) := by
    cases hpt : p with
    | temp nm ex => exact fun hcontra => FsPath.noConfusion hcontra
    | stored n e => rw [hpt] at hscr'; simp [isScratchEntry] at hscr'
    | thumb n => rw [hpt] at hscr'; simp [isScratchEntry] at hscr'
  have hentries : (st.files.map (·.1)).filter isScratchEntry =
      ((L1.map (·.1)).filter isScratchEntry) ++ p ::
        ((L2.map (·.1)).filter isScratchEntry) := by
    rw [hsplit]
    simp only [List.map_append, List.map_cons, List.filter_append]
    rw [List.filter_cons_of_pos hscr']
  have hskipA : ∀ q ∈ (L1.map (·.1)).filter isScratchEntry,
      ∀ fd', getFile st.files q = some fd' → fd'.content.length = 0 := by
    intro q hq fd' hget
    obtain ⟨hq1, hq2⟩ := List.mem_filter.mp hq
    obtain ⟨e, he, heq⟩ := List.mem_map.mp hq1
    have hmem : (q, e.2) ∈ st.files := by
      rw [hsplit]
      apply List.mem_append_left
      have hqe : (q, e.2) = e := by rw [← heq]
      rw [hqe]; exact he
    have hget2 : getFile st.files q = some e.2 :=
      getFile_of_mem_nodup _ _ _ hnd hmem
    rw [hget2] at hget
    have hfd' : e.2 = fd' := by injection hget
    rw [← hfd']
    exact hL1' e he (by rw [heq]; exact hq2)
  have hgetp : getFile st.files p = some fd :=
    getFile_of_mem_nodup _ _ _ hnd (by
      rw [hsplit]; exact List.mem_append_right _ (List.mem_cons_self _ _))
  have hskipB : ∀ q ∈ (L2.map (·.1)).filter isScratchEntry,
      ∀ fd', getFile
          (setFile (removeFile st.files p)
            (FsPath.stored st.nextPathStamp (extOf p)) fd) q = some fd' →
        fd'.content.length = 0 := by
    intro q hq fd' hget
    obtain ⟨hq1, hq2⟩ := List.mem_filter.mp hq
    obtain ⟨e, he, heq⟩ := List.mem_map.mp hq1
    have hqstored : q ≠ FsPath.stored st.nextPathStamp (extOf p) := by
      cases hqt : q with
      | temp nm ex => exact fun hcontra => FsPath.noConfusion hcontra
      | stored n e => rw [hqt] at hq2; simp [isScratchEntry] at hq2
      | thumb n => rw [hqt] at hq2; simp [isScratchEntry] at hq2
    have hqp : q ≠ p := fun hqp' => hpL2 (hqp' ▸ hq1)
    rw [getFile_setFile_ne _ _ _ _ hqstored,
      getFile_removeFile_ne _ _ _ hqp] at hget
    have hmem : (q, e.2) ∈ st.files := by
      rw [hsplit]
      apply List.mem_append_right
      apply List.mem_cons_of_mem
      have hqe : (q, e.2) = e := by rw [← heq]
      rw [hqe]; exact he
    have hget2 : getFile st.files q = some e.2 :=
      getFile_of_mem_nodup _ _ _ hnd hmem
    rw [hget2] at hget
    have hfd' : e.2 = fd' := by injection hget
    rw [← hfd']
    exact hL2' e he (by rw [heq]; exact hq2)
  have hmain : recoverOrphaned probe st =
      ([] ++ [⟨mkUuid st.nextUuid, recName st.nextPathStamp ++ "-recovered",
          FsPath.stored st.nextPathStamp (extOf p), (probe fd.content).getD 0,
          fd.content.length, .p1080, fd.mtimeMs, none, none⟩],
        { st with
            files := setFile (removeFile st.files p)
              (FsPath.stored st.nextPathStamp (extOf p)) fd
            catalog := ⟨mkUuid st.nextUuid,
              recName st.nextPathStamp ++ "-recovered",
              FsPath.stored st.nextPathStamp (extOf p),
              (probe fd.content).getD 0, fd.content.length, .p1080,
              fd.mtimeMs, none, none⟩ :: st.catalog
            nextUuid := st.nextUuid + 1
            nextPathStamp := st.nextPathStamp + 1 }) := by
    simp only [recoverOrphaned]
    rw [hentries, List.foldl_append,
      foldl_recoverStep_skip probe _ ([], st) hskipA,
      List.foldl_cons,
      recoverStep_hit probe [] st p fd hgetp hlen',
      foldl_recoverStep_skip probe _ _ hskipB]
  rw [hmain]
  refine ⟨_, rfl, rfl, rfl, rfl, rfl, ?_, ?_⟩
  · show getFile (setFile (removeFile st.files p)
        (FsPath.stored st.nextPathStamp (extOf p)) fd) p = none
    rw [getFile_setFile_ne _ _ _ _ hpne]
    exact getFile_removeFile_self _ _
  · exact getFile_setFile_self _ _ _

theorem c7_orphan_sweep_witness :
    ∃ r, (recoverOrphaned (fun _ => some 3)
          ⟨[], [(FsPath.temp "recovery-a" .webm, ⟨[7], 5⟩)], [], 0, 0⟩).1
        = [r] ∧
      r.duration = 3 ∧
      r.quality = QualityPreset.p1080 ∧
      r.fileSize = 1 ∧
      (recoverOrphaned (fun _ => some 3)
          ⟨[], [(FsPath.temp "recovery-a" .webm, ⟨[7], 5⟩)], [], 0, 0⟩).2.catalog
        = r :: [] ∧
      getFile (recoverOrphaned (fun _ => some 3)
          ⟨[], [(FsPath.temp "recovery-a" .webm, ⟨[7], 5⟩)], [], 0, 0⟩).2.files
          (FsPath.temp "recovery-a" .webm) = none ∧
      getFile (recoverOrphaned (fun _ => some 3)
          ⟨[], [(FsPath.temp "recovery-a" .webm, ⟨[7], 5⟩)], [], 0, 0⟩).2.files
          r.path = some ⟨[7], 5⟩ :=
  c7_orphan_sweep (fun _ => some 3)
    ⟨[], [(FsPath.temp "recovery-a" .webm, ⟨[7], 5⟩)], [], 0, 0⟩
    (FsPath.temp "recovery-a" .webm) ⟨[7], 5⟩ (by decide) (by decide)

end Choome
